import Mathlib

/-!
Verification development for the `gdown` repository: a shallow embedding of
the URL/identifier resolver (`gdown/helpers/parse_url.py`), the archive
extractor (`gdown/helpers/extract_all.py`), the confirmation-page resolver and
streaming downloader (`gdown/downloader/_download.py`), and the fan-out
coordinator (`gdown/downloader/file_downloader.py`), together with theorems
settling the specification claims about them.

Strings are modelled as Lean `String`s; the character-level scanning done by
Python's `re`, `str.split`, `str.replace` and `pathlib` is embedded as
structurally recursive functions over `List Char`, so every definition is
executable and concrete instances evaluate by `decide`.
-/

/-! ## Generic character-list utilities -/

/-- Check that the first list is a prefix of the second (character lists). -/
def listStarts : List Char → List Char → Bool
  | [], _ => true
  | _ :: _, [] => false
  | a :: as, b :: bs => if a = b then listStarts as bs else false

/-- If `pat` is a prefix of `l`, return the remainder of `l` after `pat`. -/
def dropPre : List Char → List Char → Option (List Char)
  | [], l => some l
  | _ :: _, [] => none
  | a :: as, b :: bs => if a = b then dropPre as bs else none

/-- Python `str.endswith`: `pat` is a suffix of `l`. -/
def pyEndsWith (pat l : List Char) : Bool :=
  listStarts pat.reverse l.reverse

/-- Split a character list on every occurrence of a separator character,
exactly like Python `str.split(sep)` (always at least one piece). -/
def splitOnChar (sep : Char) : List Char → List (List Char)
  | [] => [[]]
  | c :: cs =>
    let r := splitOnChar sep cs
    if c = sep then [] :: r
    else
      match r with
      | h :: t => (c :: h) :: t
      | [] => [[c]]

/-- Split on the first occurrence of a separator character, like Python
`str.split(sep, 1)` when the separator occurs; `none` when it does not. -/
def splitFirstOn (sep : Char) : List Char → Option (List Char × List Char)
  | [] => none
  | c :: cs =>
    if c = sep then some ([], cs)
    else
      match splitFirstOn sep cs with
      | some (a, b) => some (c :: a, b)
      | none => none

/-- Remainder of `l` after the first occurrence of the pattern `pat`;
`none` when `pat` does not occur in `l`. -/
def afterFirst (pat : List Char) : List Char → Option (List Char)
  | [] => if pat = [] then some [] else none
  | c :: cs =>
    match dropPre pat (c :: cs) with
    | some rest => some rest
    | none => afterFirst pat cs

/-- Does the pattern `pat` occur anywhere in `l`? -/
def containsSub (pat l : List Char) : Bool :=
  (afterFirst pat l).isSome

/-- The content of `l` strictly before the last occurrence of `pat`;
`none` when `pat` does not occur in `l`. -/
def beforeLast (pat : List Char) : List Char → Option (List Char)
  | [] => if pat = [] then some [] else none
  | c :: cs =>
    match beforeLast pat cs with
    | some r => some (c :: r)
    | none => if (dropPre pat (c :: cs)).isSome then some [] else none

/-- Length-fueled worker for `replaceAll`. -/
def replaceFuel (pat rep : List Char) : Nat → List Char → List Char
  | 0, l => l
  | _ + 1, [] => []
  | fuel + 1, c :: cs =>
    match dropPre pat (c :: cs) with
    | some rest => rep ++ replaceFuel pat rep fuel rest
    | none => c :: replaceFuel pat rep fuel cs

/-- Python `str.replace(pat, rep)`: replace every (non-overlapping, leftmost
first) occurrence of `pat` by `rep`.  Only used with non-empty `pat`. -/
def replaceAll (pat rep l : List Char) : List Char :=
  replaceFuel pat rep l.length l

/-! ## The pathlib fragment used by the repository

`extract_all.py` and `_download.py` use `pathlib.Path`'s `suffix`,
`suffixes`, `with_suffix`, `parent`, `name` and the `/` join operator.  These
are embedded over plain strings, for slash-normalized inputs (no redundant
`//` or trailing `/`, which `pathlib` would normalize away on construction).
-/

/-- The final path component, `pathlib.Path.name` for normalized paths. -/
def pathName (p : String) : String :=
  ⟨(splitOnChar '/' p.data).getLastD []⟩

/-- Index of the last occurrence of `'.'` in a character list. -/
def lastDotIdx (l : List Char) : Option Nat :=
  match l with
  | [] => none
  | c :: cs =>
    match lastDotIdx cs with
    | some i => some (i + 1)
    | none => if c = '.' then some 0 else none

/-- Python `pathlib.Path.suffix`: with `name = self.name` and
`i = name.rfind('.')`, returns `name[i:]` when `0 < i < len(name) - 1`,
else the empty string. -/
def pathSuffix (p : String) : String :=
  let name := pathName p
  match lastDotIdx name.data with
  | some i => if 0 < i ∧ i < name.data.length - 1 then ⟨name.data.drop i⟩ else ""
  | none => ""

/-- Python `pathlib.Path.suffixes`: `[]` if the name ends with a dot, else
`['.' + s for s in name.lstrip('.').split('.')[1:]]`. -/
def pathSuffixes (p : String) : List String :=
  let name := pathName p
  if pyEndsWith ['.'] name.data then []
  else ((splitOnChar '.' (name.data.dropWhile (· = '.'))).tail).map
    (fun s => ⟨'.' :: s⟩)

/-- Python `pathlib.Path.with_suffix(suf)`: the path with its (possibly
empty) final suffix removed and `suf` appended. -/
def withSuffix (p suf : String) : String :=
  ⟨p.data.take (p.data.length - (pathSuffix p).data.length) ++ suf.data⟩

/-- The stem part that `with_suffix` keeps: the path minus its final suffix. -/
def stemOf (p : String) : String :=
  ⟨p.data.take (p.data.length - (pathSuffix p).data.length)⟩

/-- Python `pathlib.Path.parent` for normalized paths: the content before the
last `/` (`"."` when there is no `/`, `"/"` for a top-level absolute path). -/
def pathParent (p : String) : String :=
  match beforeLast ['/'] p.data with
  | none => "."
  | some [] => "/"
  | some pre => ⟨pre⟩

/-- Python `str(a / b)` on `pathlib` paths, for normalized inputs: `b` if it
is absolute, else `b` when `a` is `"."`, else `a ++ "/" ++ b`. -/
def pathJoin (a b : String) : String :=
  if b.data.head? = some '/' then b
  else if a = "." then b
  else ⟨a.data ++ '/' :: b.data⟩

/-! ## The archive extractor (`gdown/helpers/extract_all.py`)

The opener selection in `extract_all` reads:

```
if path.suffix == ".zip":
    opener, mode = zipfile.ZipFile, "r"
elif path.suffix == ".tar":
    opener, mode = tarfile.open, "r"
elif path.suffixes[-2:] in [(".tar", ".gz"), (".tgz",)]:
    opener, mode = tarfile.open, "r:gz"
elif path.suffixes[-2:] in [(".tar", ".bz2"), (".tbz",)]:
    opener, mode = tarfile.open, "r:bz2"
else:
    raise ValueError(...)
```

`path.suffixes[-2:]` is a Python *list*, while the membership tests compare it
against *tuples*.  In Python a list never compares equal to a tuple, so the
embedding keeps the list/tuple distinction explicit.
-/

/-- A Python sequence value that is either a list or a tuple. -/
inductive PySeq where
  | pyList : List String → PySeq
  | pyTuple : List String → PySeq
deriving DecidableEq, Repr

/-- Python `==` between sequence values: a list and a tuple are never equal,
two sequences of the same kind compare elementwise. -/
def pySeqEq : PySeq → PySeq → Bool
  | .pyList a, .pyList b => a = b
  | .pyTuple a, .pyTuple b => a = b
  | _, _ => false

/-- Python `x in ys` over sequence values, using Python `==`. -/
def pySeqMem (x : PySeq) (ys : List PySeq) : Bool :=
  ys.any (fun y => pySeqEq x y)

/-- Python `l[-2:]`: the last (at most) two elements of a list. -/
def lastTwo (l : List String) : List String :=
  l.drop (l.length - 2)

/-- The archive opener chosen by `extract_all`. -/
inductive Opener where
  | zipfile
  | tarfile
deriving DecidableEq, Repr

/-- The opener/mode selection chain of `extract_all`, including the
list-versus-tuple membership tests exactly as the source writes them. -/
def selectOpener (path : String) : Except String (Opener × String) :=
  if pathSuffix path = ".zip" then .ok (.zipfile, "r")
  else if pathSuffix path = ".tar" then .ok (.tarfile, "r")
  else if pySeqMem (.pyList (lastTwo (pathSuffixes path)))
      [.pyTuple [".tar", ".gz"], .pyTuple [".tgz"]] then .ok (.tarfile, "r:gz")
  else if pySeqMem (.pyList (lastTwo (pathSuffixes path)))
      [.pyTuple [".tar", ".bz2"], .pyTuple [".tbz"]] then .ok (.tarfile, "r:bz2")
  else .error ("Could not extract " ++ path ++
    " as no appropriate extractor is found")

/-- The extraction target: `to = Path(to) if to else path.parent` (an empty
string is falsy in Python and also falls back to the parent). -/
def extractTarget (path : String) (toDir : Option String) : String :=
  match toDir with
  | none => pathParent path
  | some t => if t.data = [] then pathParent path else t

/-- The observable behaviour of `extract_all(path, to)`.  The archive's
member names (`namelist`, supplied here as input since the archive file
itself is external I/O) are extracted into the target directory inside the
`with` block; an unsupported format raises before anything is extracted.
The final `return filelist(f)` runs *after* the `with` block has closed
`f`: `ZipFile.namelist` still works on a closed file, so zip calls return
`[str(to / fname) for fname in namelist(f)]`, but `TarFile.getmembers`
begins with `self._check()`, which raises `OSError("TarFile is closed")`
on a closed archive — tar calls extract and then raise instead of
returning the list. -/
def extract_all (path : String) (toDir : Option String) (members : List String) :
    Except String (List String) :=
  let target := extractTarget path toDir
  match selectOpener path with
  | .error e => .error e
  | .ok (.zipfile, _) => .ok (members.map (fun m => pathJoin target m))
  | .ok (.tarfile, _) => .error "TarFile is closed"

/-! ## The identifier resolver (`gdown/helpers/parse_url.py`)

`parse_url` works on `urllib.parse.urlparse(url)`, reading only `hostname`,
`path` and `query`.  URL-splitting itself is the standard library's job, so a
URL enters the embedding already split into those three fields.
-/

/-- The fields of `urllib.parse.urlparse(url)` that `parse_url` reads. -/
structure UrlParts where
  hostname : Option String
  path : String
  query : String
deriving DecidableEq, Repr

/-- `is_google_drive_url`: `parsed.hostname in ["drive.google.com",
"docs.google.com"]` (a missing hostname is in neither). -/
def is_google_drive_url (u : UrlParts) : Bool :=
  u.hostname = some "drive.google.com" || u.hostname = some "docs.google.com"

/-- Is the character an ASCII hexadecimal digit? -/
def isHexDigit (c : Char) : Bool :=
  ('0' ≤ c && c ≤ '9') || ('a' ≤ c && c ≤ 'f') || ('A' ≤ c && c ≤ 'F')

/-- Numeric value of an ASCII hexadecimal digit. -/
def hexVal (c : Char) : Nat :=
  if '0' ≤ c && c ≤ '9' then c.toNat - '0'.toNat
  else if 'a' ≤ c && c ≤ 'f' then c.toNat - 'a'.toNat + 10
  else c.toNat - 'A'.toNat + 10

/-- Percent-decoding as in `urllib.parse.unquote`: a `%` followed by two hex
digits becomes the decoded byte, an invalid `%` sequence is kept as-is.
Decoded bytes are modelled one character per byte (the inputs the claims use
are ASCII, where this agrees with Python's UTF-8 decoding). -/
def pctDecode : List Char → List Char
  | '%' :: a :: b :: rest =>
    if isHexDigit a && isHexDigit b then
      Char.ofNat (16 * hexVal a + hexVal b) :: pctDecode rest
    else '%' :: pctDecode (a :: b :: rest)
  | c :: rest => c :: pctDecode rest
  | [] => []

/-- `urllib.parse.unquote_plus`: replace `+` by space, then percent-decode. -/
def unquotePlus (l : List Char) : List Char :=
  pctDecode (l.map (fun c => if c = '+' then ' ' else c))

/-- `urllib.parse.parse_qsl(qs)` with the default options: split the query on
`&`; skip empty chunks, chunks without `=`, and chunks with an empty value
(`keep_blank_values=False`); unquote names and values. -/
def parseQsl (q : String) : List (String × String) :=
  (splitOnChar '&' q.data).filterMap (fun chunk =>
    match splitFirstOn '=' chunk with
    | none => none
    | some (n, v) =>
      if v = [] then none
      else some (⟨unquotePlus n⟩, ⟨unquotePlus v⟩))

/-- The value list `urllib.parse.parse_qs(qs)[key]`: every value parsed for
`key`, in query order (the key is absent from the dict iff this is `[]`). -/
def getParam (q key : String) : List String :=
  (parseQsl q).filterMap (fun p => if p.1 = key then some p.2 else none)

/-! ### The path-pattern table (`gdown/constants.py`, `PARSING_PATTERNS`)

```
PARSING_PATTERNS = [
    r"^/file/d/(.*?)/(edit|view)$",
    r"^/file/u/[0-9]+/d/(.*?)/(edit|view)$",
    r"^/document/d/(.*?)/(edit|htmlview|view)$",
    r"^/document/u/[0-9]+/d/(.*?)/(edit|htmlview|view)$",
    r"^/presentation/d/(.*?)/(edit|htmlview|view)$",
    r"^/presentation/u/[0-9]+/d/(.*?)/(edit|htmlview|view)$",
    r"^/spreadsheets/d/(.*?)/(edit|htmlview|view)$",
    r"^/spreadsheets/u/[0-9]+/d/(.*?)/(edit|htmlview|view)$",
]
```

Each pattern is anchored (`re.match` plus a trailing `$`), so the lazy group
`(.*?)` captures the shortest middle part such that the remaining input is
exactly `/` followed by one of the alternatives (Python's `$` also tolerates
one trailing newline).  The embedding implements exactly that semantics.
-/

/-- Does the remaining input complete a pattern right here, i.e. equal `/alt`
(or `/alt` plus a trailing newline, which `$` tolerates) for some
alternative? -/
def tailHit (alts : List (List Char)) (rest : List Char) : Bool :=
  alts.any (fun a =>
    decide (rest = '/' :: a) || decide (rest = '/' :: (a ++ ['\n'])))

/-- The lazy group `(.*?)/(alt₁|alt₂|…)$`: try the shortest capture first,
extending one character at a time (`acc` holds the reversed capture so far). -/
def lazyGroup (alts : List (List Char)) : List Char → List Char → Option (List Char)
  | acc, rest =>
    if tailHit alts rest then some acc.reverse
    else
      match rest with
      | [] => none
      | c :: cs => lazyGroup alts (c :: acc) cs

/-- One pattern of the table: the literal prefix `/<kind>`, then (for the
multi-account variants) `/u/` followed by a greedy non-empty digit run, then
the literal `/d/`, then the lazy capture ended by `/(alt…)$`.  Returns the
captured group. -/
def matchShapePath (kind : List Char) (multi : Bool) (alts : List (List Char))
    (path : List Char) : Option (List Char) :=
  match dropPre ('/' :: kind) path with
  | none => none
  | some r1 =>
    if multi then
      match dropPre "/u/".data r1 with
      | none => none
      | some r2 =>
        let ds := r2.takeWhile Char.isDigit
        if ds = [] then none
        else
          match dropPre "/d/".data (r2.drop ds.length) with
          | none => none
          | some r3 => lazyGroup alts [] r3
    else
      match dropPre "/d/".data r1 with
      | none => none
      | some r3 => lazyGroup alts [] r3

/-- The eight patterns of `PARSING_PATTERNS`, in table order. -/
def PARSING_PATTERNS : List (List Char → Option (List Char)) :=
  [matchShapePath "file".data false ["edit".data, "view".data],
   matchShapePath "file".data true ["edit".data, "view".data],
   matchShapePath "document".data false ["edit".data, "htmlview".data, "view".data],
   matchShapePath "document".data true ["edit".data, "htmlview".data, "view".data],
   matchShapePath "presentation".data false ["edit".data, "htmlview".data, "view".data],
   matchShapePath "presentation".data true ["edit".data, "htmlview".data, "view".data],
   matchShapePath "spreadsheets".data false ["edit".data, "htmlview".data, "view".data],
   matchShapePath "spreadsheets".data true ["edit".data, "htmlview".data, "view".data]]

/-- The pattern loop of `parse_url`: first matching pattern wins. -/
def firstMatch : List (List Char → Option (List Char)) → List Char → Option (List Char)
  | [], _ => none
  | p :: ps, path =>
    match p path with
    | some g => some g
    | none => firstMatch ps path

/-- `parse_url(url)`: returns `(file_id, is_download_link)`.  The `id` query
parameter, when present, decides the identifier (its single value, or `None`
for a multi-valued parameter) and the path-pattern table is not consulted;
otherwise the first matching path pattern's captured group is the identifier.
`is_download_link` is `parsed.path.endswith("/uc")`.  The non-fatal warning
the source may emit is not part of the returned value and is not modelled. -/
def parse_url (u : UrlParts) : Option String × Bool :=
  let is_download_link := pyEndsWith "/uc".data u.path.data
  if !is_google_drive_url u then (none, is_download_link)
  else
    let file_id : Option String :=
      match getParam u.query "id" with
      | [] => (firstMatch PARSING_PATTERNS u.path.data).map (fun g => (⟨g⟩ : String))
      | [v] => some v
      | _ :: _ :: _ => none
    (file_id, is_download_link)

/-! ## The confirmation resolver (`get_url_from_gdrive_confirmation`)

The source scans the body line by line.  Per line, in this order:

1. `re.search(r'href="(\/uc\?export=download[^"]+)', line)` — on a hit the
   URL is `"https://docs.google.com" + group` with `&amp;` replaced by `&`,
   and the loop breaks.
2. `soup.select_one("#download-form")` via BeautifulSoup — on a hit the URL
   is rebuilt from the form's `action` and hidden inputs, and the loop
   breaks.
3. `re.search('"downloadUrl":"([^"]+)', line)` — on a hit the group with
   the escape `\u003d` replaced by `=` and `\u0026` replaced by `&` is
   the URL, and the loop breaks.
4. `re.search('<p class="uc-error-subcaption">(.*)</p>', line)` — on a hit a
   `FileURLRetrievalError` carrying the caption text is raised immediately.

After the loop, an empty URL raises the generic `FileURLRetrievalError`.
-/

/-- Leftmost `re.search` of `needle` followed by a non-empty run of
non-quote characters (the `[^"]+` group); a position where the run would be
empty is skipped, as the regex engine moves on to the next start position. -/
def searchCapture (needle : List Char) : List Char → Option (List Char)
  | [] => none
  | c :: cs =>
    match dropPre needle (c :: cs) with
    | some afterN =>
      let cap := afterN.takeWhile (fun x => x ≠ '"')
      if cap = [] then searchCapture needle cs else some cap
    | none => searchCapture needle cs

/-- Strategy 1: the capture group of
`href="(\/uc\?export=download[^"]+)` — the group text starts at `/uc`. -/
def hrefGroup (line : List Char) : Option (List Char) :=
  (searchCapture "href=\"/uc?export=download".data line).map
    (fun cap => "/uc?export=download".data ++ cap)

/-- Strategy 2 trigger: BeautifulSoup's `select_one("#download-form")` finds
an element whose id is `download-form`.  The HTML parsing is done by the
external bs4 library; it is modelled as the line containing the attribute
text `id="download-form"`. -/
def formTrigger (line : List Char) : Bool :=
  containsSub "id=\"download-form\"".data line

/-- Strategy 2 result: the form's `action` attribute with `&amp;` decoded.
The re-serialization of hidden `<input>` fields into the query string is
performed by bs4 and `urllib.parse` (external collaborators) and is not
modelled; no claim exercises it. -/
def formActionUrl (line : List Char) : List Char :=
  match afterFirst "action=\"".data line with
  | some rest => replaceAll "&amp;".data "&".data (rest.takeWhile (fun x => x ≠ '"'))
  | none => []

/-- Strategy 3: the capture group of `"downloadUrl":"([^"]+)`. -/
def downloadUrlGroup (line : List Char) : Option (List Char) :=
  searchCapture "\"downloadUrl\":\"".data line

/-- Strategy 4: the capture group of
`<p class="uc-error-subcaption">(.*)</p>` — everything between the first
opening tag and the last `</p>` after it (greedy `.*`). -/
def captionGroup (line : List Char) : Option (List Char) :=
  match afterFirst "<p class=\"uc-error-subcaption\">".data line with
  | none => none
  | some rest => beforeLast "</p>".data rest

/-- What a single line of the body yields: a download URL, an error caption,
or nothing. -/
inductive ConfirmHit where
  | url : String → ConfirmHit
  | caption : String → ConfirmHit
deriving DecidableEq, Repr

/-- One iteration of the per-line scan, with the four checks in source
order; the first hit on the line decides. -/
def scanLine (line : String) : Option ConfirmHit :=
  match hrefGroup line.data with
  | some g =>
    some (.url ⟨replaceAll "&amp;".data "&".data ("https://docs.google.com".data ++ g)⟩)
  | none =>
    if formTrigger line.data then some (.url ⟨formActionUrl line.data⟩)
    else
      match downloadUrlGroup line.data with
      | some g =>
        some (.url ⟨replaceAll "\\u0026".data "&".data
          (replaceAll "\\u003d".data "=".data g)⟩)
      | none =>
        match captionGroup line.data with
        | some cap => some (.caption ⟨cap⟩)
        | none => none

/-- The generic failure message raised when the scan finds no URL. -/
def genericRetrievalMsg : String :=
  "Cannot retrieve the public link of the file. " ++
  "You may need to change the permission to " ++
  "\x27Anyone with the link\x27, or have had many accesses. "

/-- Python `str.splitlines` restricted to `\n` separators: like
`splitOn "\n"` but without a trailing empty piece. -/
def pySplitlines (s : String) : List String :=
  let parts := (splitOnChar '\n' s.data).map (fun l => (⟨l⟩ : String))
  match parts.getLast? with
  | some "" => parts.dropLast
  | _ => parts

/-- The line loop of `get_url_from_gdrive_confirmation`: first hit wins; a
caption hit raises immediately with the caption text; a URL hit breaks the
loop, after which an empty URL still raises the generic error. -/
def resolveLines : List String → Except String String
  | [] => .error genericRetrievalMsg
  | line :: rest =>
    match scanLine line with
    | some (.url u) => if u = "" then .error genericRetrievalMsg else .ok u
    | some (.caption c) => .error c
    | none => resolveLines rest

/-- `get_url_from_gdrive_confirmation(contents)`: scan the body text line by
line; return the first extracted URL or fail with a
`FileURLRetrievalError` message. -/
def get_url_from_gdrive_confirmation (contents : String) : Except String String :=
  resolveLines (pySplitlines contents)

/-! ## The streaming downloader (`gdown/downloader/_download.py`, `download`)

The success record the downloader returns (`gdown.models.GdownRsp`, built
with `url`, `output`, `last_modified` and `total_time`). -/

structure GdownRsp where
  url : String
  output : String
  lastModified : Option String
  totalTime : String
deriving DecidableEq, Repr

/-- The on-disk artifacts of one download attempt: whether the temporary
`.part` file and the final output file exist. -/
structure FS where
  temp : Bool
  final : Bool
deriving DecidableEq, Repr

/-- The `except` handler of `download`:
`if temp_file.exists(): temp_file.unlink()` — run before re-raising. -/
def cleanupHandler (s : FS) : FS :=
  if s.temp then { s with temp := false } else s

/-- The temporary path used by `download`:
`temp_file = output.with_suffix(".part")`. -/
def tempPath (output : String) : String :=
  withSuffix output ".part"

/-- The body of `download` from the point the temporary file is created
(`temp_file.open("wb")`), as a file-system state machine.  The fallible
steps — streaming the chunks, renaming, and saving the cookie jar — are
modelled with explicit failure switches; each failure path runs
`cleanupHandler` and propagates a `FileURLRetrievalError`, exactly as the
`try/except` of the source does.  Streaming happens with the temporary file
present, the rename `temp_file.rename(output)` atomically replaces it by the
final file, and only then are cookies saved and the `GdownRsp` built. -/
def downloadBody (rsp : GdownRsp)
    (useCookies streamFails renameFails cookieSaveFails : Bool) :
    Except String GdownRsp × FS :=
  let s0 : FS := { temp := true, final := false }
  if streamFails then
    (.error "Download failed due to stream error", cleanupHandler s0)
  else if renameFails then
    (.error "Download failed due to rename error", cleanupHandler s0)
  else
    let s1 : FS := { temp := false, final := true }
    if useCookies && cookieSaveFails then
      (.error "Download failed due to cookie save error", cleanupHandler s1)
    else (.ok rsp, s1)

/-! ## The fan-out coordinator (`FilesDownloader.download`)

For a list of URLs the source runs

```
try:
    ...
    with ThreadPoolExecutor() as executor:
        results = list(executor.map(lambda u: download(u, ...), url))
    return results
except Exception as e:
    logger.error(f"Download failed: {e}")
    return None
```

`executor.map` re-raises the first per-item exception when the results are
collected, the single `try` around the whole batch catches it, and the
method returns `None` — there are no per-item failure markers.  The per-URL
transfer is abstracted as a function `dl` from a URL to its outcome. -/

/-- `list(executor.map(dl, urls))`: the per-item results in input order; the
first per-item exception (in input order) is re-raised while the list is
being collected. -/
def collectResults (dl : String → Except String GdownRsp) :
    List String → Except String (List GdownRsp)
  | [] => .ok []
  | u :: us =>
    match dl u with
    | .error e => .error e
    | .ok r =>
      match collectResults dl us with
      | .error e => .error e
      | .ok rs => .ok (r :: rs)

/-- `FilesDownloader.download` on a list of URLs: the whole batch runs under
one `try`, so the first per-item exception makes the method return `None`;
a list of per-item results is returned only when every URL succeeded. -/
def filesDownload (dl : String → Except String GdownRsp) (urls : List String) :
    Option (List GdownRsp) :=
  match collectResults dl urls with
  | .ok rs => some rs
  | .error _ => none

/-! ## Concrete instances used by counterexamples and witnesses -/

/-- A per-URL transfer where exactly the URL `"bad"` fails. -/
def dlProbe : String → Except String GdownRsp :=
  fun u => if u = "bad" then .error "boom" else .ok ⟨u, "out", none, "0"⟩

/-- A single body line holding both an error caption and an href URL. -/
def captionHrefLine : String :=
  "<p class=\"uc-error-subcaption\">Quota exceeded</p>" ++
  "<a href=\"/uc?export=download&amp;id=X\">"

/-- The `downloadUrl` body line of the specification's scenario, with its
literal backslash escapes. -/
def downloadUrlLine : String :=
  "\"downloadUrl\":\"https:\\/\\/host\\/path\\u003dX\\u0026confirm\\u003dY\""

/-- A documented provider path shape:
`/<kind>[/u/<digits>]/d/<identifier>/<suffix>`. -/
def shapePath (kind : String) (acct : Option String) (fid alt : String) : String :=
  match acct with
  | none => "/" ++ kind ++ "/d/" ++ fid ++ "/" ++ alt
  | some d => "/" ++ kind ++ "/u/" ++ d ++ "/d/" ++ fid ++ "/" ++ alt

/-- The kind/suffix table that `PARSING_PATTERNS` actually accepts: `file`
paths take the `edit`/`view` suffixes; `document`, `presentation` and
`spreadsheets` paths take `edit`/`htmlview`/`view`. -/
def documentedShapes : List (String × List String) :=
  [("file", ["edit", "view"]),
   ("document", ["edit", "htmlview", "view"]),
   ("presentation", ["edit", "htmlview", "view"]),
   ("spreadsheets", ["edit", "htmlview", "view"])]

/-! ## Theorems -/

/-! ### C3 — archive format selection -/

/-- C3: the claim says the extractor selects an opener for `.zip`, `.tar`,
`.tar.gz`, `.tgz`, `.tar.bz2` and `.tbz` paths and errors only on other
suffixes.  The code agrees for `.zip` and `.tar`, but the compressed-tar
branches compare the list `path.suffixes[-2:]` against tuples, which in
Python is always false, so every `.tar.gz`, `.tgz`, `.tar.bz2`, `.tbz` path
falls through to the unsupported-format error. -/
theorem extract_all_compressed_tar_rejected :
    selectOpener "a.zip" = .ok (.zipfile, "r") ∧
    selectOpener "a.tar" = .ok (.tarfile, "r") ∧
    (∃ e, selectOpener "a.tar.gz" = .error e) ∧
    (∃ e, selectOpener "a.tgz" = .error e) ∧
    (∃ e, selectOpener "a.tar.bz2" = .error e) ∧
    (∃ e, selectOpener "a.tbz" = .error e) :=
  ⟨rfl, rfl, ⟨_, rfl⟩, ⟨_, rfl⟩, ⟨_, rfl⟩, ⟨_, rfl⟩⟩

/-! ### C5 — temporary-path derivation -/

/-- C5 counterexample: the temporary-path map `output.with_suffix(".part")`
is not injective — the distinct final paths `a.txt` and `a.zip` share the
temporary path `a.part`. -/
theorem tempPath_not_injective :
    tempPath "a.txt" = "a.part" ∧ tempPath "a.zip" = "a.part" ∧
    ("a.txt" : String) ≠ "a.zip" := by
  decide

/-- C5 amended: the temporary path is the final path with its last suffix
replaced by `.part`, so two final paths get the same temporary path exactly
when their suffix-stripped stems coincide; final paths with distinct stems
never collide. -/
theorem tempPath_eq_iff_stem_eq (p q : String) :
    tempPath p = tempPath q ↔ stemOf p = stemOf q := by
  constructor
  · intro h
    have hd : (stemOf p).data ++ ".part".data = (stemOf q).data ++ ".part".data :=
      congrArg String.data h
    exact congrArg String.mk (List.append_cancel_right hd)
  · intro h
    exact congrArg (fun s : String => (⟨s.data ++ ".part".data⟩ : String)) h

/-! ### C1 — fan-out over many URLs -/

/-- Helper: if any URL in the list fails, collecting the mapped results
re-raises an exception. -/
theorem collectResults_error_of_mem (dl : String → Except String GdownRsp) :
    ∀ (urls : List String) (u : String), u ∈ urls → (∃ e, dl u = .error e) →
      ∃ e, collectResults dl urls = .error e := by
  intro urls
  induction urls with
  | nil => intro u hu; cases hu
  | cons a as ih =>
    rintro u hu ⟨e, he⟩
    rcases List.mem_cons.mp hu with rfl | hmem
    · exact ⟨e, by simp [collectResults, he]⟩
    · cases hda : dl a with
      | error e2 => exact ⟨e2, by simp [collectResults, hda]⟩
      | ok r =>
        obtain ⟨e3, h3⟩ := ih u hmem ⟨e, he⟩
        exact ⟨e3, by simp [collectResults, hda, h3]⟩

/-- Helper: if every URL succeeds, collecting the mapped results returns the
per-item records in input order. -/
theorem collectResults_ok_of_all (dl : String → Except String GdownRsp) :
    ∀ urls : List String, (∀ u ∈ urls, ∃ r, dl u = .ok r) →
      ∃ rs, collectResults dl urls = .ok rs ∧ rs.length = urls.length ∧
        ∀ (i : Nat) (h : i < urls.length) (h2 : i < rs.length),
          dl (urls.get ⟨i, h⟩) = .ok (rs.get ⟨i, h2⟩) := by
  intro urls
  induction urls with
  | nil =>
    intro _
    exact ⟨[], rfl, rfl, fun i h => absurd h (by simp)⟩
  | cons a as ih =>
    intro hall
    obtain ⟨r, hr⟩ := hall a (by simp)
    obtain ⟨rs, hok, hlen, hpt⟩ := ih (fun u hu => hall u (by simp [hu]))
    refine ⟨r :: rs, by simp [collectResults, hr, hok], by simp [hlen], ?_⟩
    intro i h h2
    match i with
    | 0 => simpa using hr
    | Nat.succ j =>
      have hj : j < as.length := by simpa using h
      have hj2 : j < rs.length := by simpa using h2
      simpa using hpt j hj hj2

/-- C1 amended: in the fan-out over a list of URLs, any per-item failure is
caught at the batch level and the whole call returns `none` — no per-item
outcome sequence is produced; the per-item records, in input order, are
returned only when every URL succeeds. -/
theorem fanout_failure_collapses_batch (dl : String → Except String GdownRsp)
    (urls : List String) :
    ((∃ u ∈ urls, ∃ e, dl u = .error e) → filesDownload dl urls = none) ∧
    ((∀ u ∈ urls, ∃ r, dl u = .ok r) →
      ∃ rs, filesDownload dl urls = some rs ∧ rs.length = urls.length ∧
        ∀ (i : Nat) (h : i < urls.length) (h2 : i < rs.length),
          dl (urls.get ⟨i, h⟩) = .ok (rs.get ⟨i, h2⟩)) := by
  constructor
  · rintro ⟨u, hu, he⟩
    obtain ⟨e, hce⟩ := collectResults_error_of_mem dl urls u hu he
    simp [filesDownload, hce]
  · intro hall
    obtain ⟨rs, hok, hlen, hpt⟩ := collectResults_ok_of_all dl urls hall
    exact ⟨rs, by simp [filesDownload, hok], hlen, hpt⟩

/-- C1 amended, witness: with the probe transfer where exactly `"bad"`
fails, the two-URL batch `["good", "bad"]` returns `none`. -/
theorem fanout_failure_collapses_batch_witness :
    filesDownload dlProbe ["good", "bad"] = none :=
  (fanout_failure_collapses_batch dlProbe ["good", "bad"]).1
    ⟨"bad", by decide, "boom", rfl⟩

/-- C1 counterexample: over `["good", "bad"]`, where exactly one URL fails
and one succeeds, the fan-out returns `none` — a single batch-level failure
marker, not a two-element sequence with one failure and one success. -/
theorem fanout_one_failure_yields_none :
    dlProbe "good" = .ok ⟨"good", "out", none, "0"⟩ ∧
    dlProbe "bad" = .error "boom" ∧
    filesDownload dlProbe ["good", "bad"] = none :=
  ⟨rfl, rfl, rfl⟩

/-! ### C2 — temporary-file cleanup -/

/-- C2 amended: after the temporary file is created, (a) the temporary file
never survives the attempt, successful or not; (b) a success leaves exactly
the final file; (c) a failure before the rename (streaming or the rename
itself) propagates an error and leaves neither the temporary nor the final
file.  A failure after the rename (saving the cookie jar) still propagates
an error, but by then the completed file sits at the final path — the
cleanup handler only removes the temporary file. -/
theorem download_cleanup (rsp : GdownRsp) (uc sf rf cf : Bool) :
    ((downloadBody rsp uc sf rf cf).2.temp = false) ∧
    ((downloadBody rsp uc sf rf cf).1 = .ok rsp →
      (downloadBody rsp uc sf rf cf).2 = ⟨false, true⟩) ∧
    ((sf = true ∨ rf = true) →
      (∃ e, (downloadBody rsp uc sf rf cf).1 = .error e) ∧
      (downloadBody rsp uc sf rf cf).2 = ⟨false, false⟩) := by
  cases uc <;> cases sf <;> cases rf <;> cases cf <;>
    simp [downloadBody, cleanupHandler]

/-- C2 amended, witness: a failure while streaming deletes the temporary
file and leaves no final artifact. -/
theorem download_cleanup_witness :
    (downloadBody ⟨"u", "o", none, "t"⟩ true true false false).2 = ⟨false, false⟩ ∧
    (∃ e, (downloadBody ⟨"u", "o", none, "t"⟩ true true false false).1 = .error e) := by
  have h := (download_cleanup ⟨"u", "o", none, "t"⟩ true true false false).2.2 (Or.inl rfl)
  exact ⟨h.2, h.1⟩

/-- C2 counterexample: when the cookie-jar save fails — a failure after the
temporary file was created — the error propagates while the completed file
remains at the final output path, contradicting the claim that a failed
attempt leaves no artifact at the final path. -/
theorem download_cookie_failure_leaves_final_artifact :
    (downloadBody ⟨"u", "o", none, "t"⟩ true false false true).1 =
      .error "Download failed due to cookie save error" ∧
    (downloadBody ⟨"u", "o", none, "t"⟩ true false false true).2.final = true :=
  ⟨rfl, rfl⟩

/-! ### C10 — extraction target and returned member paths -/

/-- C10 counterexample: on `a.tar` an opener is selected and extraction
runs, yet the call returns no member list at all — the member listing runs
after the `with` block has closed the archive, and `TarFile.getmembers`
raises the closed-file error, contradicting the claim that every call
returns the joined member names. -/
theorem extract_all_tar_raises_after_close :
    selectOpener "a.tar" = .ok (.tarfile, "r") ∧
    extract_all "a.tar" none ["x"] = .error "TarFile is closed" ∧
    ∀ r : List String, extract_all "a.tar" none ["x"] ≠ .ok r := by
  refine ⟨rfl, rfl, ?_⟩
  intro r h
  rw [show extract_all "a.tar" none ["x"] = .error "TarFile is closed" from rfl]
    at h
  exact Except.noConfusion h

/-- C10 amended: a call without an explicit target uses the archive's
parent directory as the extraction target; whenever `extract_all` returns,
its value is exactly the member names each joined (`str(to / fname)`) to
the target — but only zip archives return: for a selected tar opener the
member listing runs on the already-closed archive, so the call raises the
closed-file error instead of returning the list. -/
theorem extract_all_target_and_members :
    (∀ path : String, extractTarget path none = pathParent path) ∧
    (∀ (path : String) (toDir : Option String) (members r : List String),
        extract_all path toDir members = .ok r →
        r = members.map (fun m => pathJoin (extractTarget path toDir) m)) ∧
    (∀ (path : String) (toDir : Option String) (members : List String)
        (mode : String), selectOpener path = .ok (.tarfile, mode) →
        extract_all path toDir members = .error "TarFile is closed") := by
  refine ⟨fun path => rfl, ?_, ?_⟩
  · intro path toDir members r h
    unfold extract_all at h
    cases hs : selectOpener path with
    | error e => rw [hs] at h; cases h
    | ok o =>
      match o, hs with
      | (.zipfile, m), hs =>
        rw [hs] at h
        cases h
        rfl
      | (.tarfile, m), hs =>
        rw [hs] at h
        cases h
  · intro path toDir members mode hs
    unfold extract_all
    rw [hs]

/-- C10 amended, witness: extracting `dir/a.zip` with no target returns the
members joined to the parent directory `dir`, while `a.tar` raises the
closed-file error. -/
theorem extract_all_target_and_members_witness :
    extract_all "dir/a.zip" none ["x", "sub/y"] = .ok ["dir/x", "dir/sub/y"] ∧
    ["dir/x", "dir/sub/y"] =
      (["x", "sub/y"]).map (fun m => pathJoin (extractTarget "dir/a.zip" none) m) ∧
    extract_all "a.tar" none ["x"] = .error "TarFile is closed" :=
  ⟨rfl,
    extract_all_target_and_members.2.1 "dir/a.zip" none ["x", "sub/y"]
      ["dir/x", "dir/sub/y"] rfl,
    extract_all_target_and_members.2.2 "a.tar" none ["x"] "r" rfl⟩

/-! ### C7 — single-valued id query parameter -/

/-- C7: for a Google Drive URL whose query string parses to a single-valued
`id` parameter, `parse_url` returns exactly that value as the file
identifier. -/
theorem parse_url_single_id_param (u : UrlParts) (v : String)
    (hg : is_google_drive_url u = true)
    (hid : getParam u.query "id" = [v]) :
    (parse_url u).1 = some v := by
  simp [parse_url, hg, hid]

/-- C7 witness: a share URL with query `id=ABC` resolves to identifier
`ABC`. -/
theorem parse_url_single_id_param_witness :
    is_google_drive_url ⟨some "drive.google.com", "/open", "id=ABC"⟩ = true ∧
    getParam "id=ABC" "id" = ["ABC"] ∧
    (parse_url ⟨some "drive.google.com", "/open", "id=ABC"⟩).1 = some "ABC" :=
  ⟨rfl, rfl,
    parse_url_single_id_param ⟨some "drive.google.com", "/open", "id=ABC"⟩
      "ABC" rfl rfl⟩

/-! ### C9 — multi-valued id parameter wins over the path table -/

/-- C9: on a Google Drive URL whose query carries the `id` parameter with
two or more values, `parse_url` returns `none` as the identifier — the
path-pattern table is not consulted (the conclusion holds for every path,
including paths that would match a documented pattern). -/
theorem parse_url_multivalued_id_none (u : UrlParts) (vs : List String)
    (hg : is_google_drive_url u = true)
    (hid : getParam u.query "id" = vs)
    (hlen : 2 ≤ vs.length) :
    (parse_url u).1 = none := by
  match vs, hlen with
  | a :: b :: t, _ =>
    simp [parse_url, hg, hid]

/-- C9 witness: a Google Drive URL whose path matches the `file/view`
pattern but whose query is `id=a&id=b` resolves to no identifier. -/
theorem parse_url_multivalued_id_none_witness :
    getParam "id=a&id=b" "id" = ["a", "b"] ∧
    (parse_url ⟨some "drive.google.com", "/file/d/XYZ/view", "id=a&id=b"⟩).1 = none :=
  ⟨rfl,
    parse_url_multivalued_id_none
      ⟨some "drive.google.com", "/file/d/XYZ/view", "id=a&id=b"⟩
      ["a", "b"] rfl rfl (by decide)⟩

/-! ### C6 / C4 — confirmation-page resolution -/

/-- Helper: lines on which no check fires are skipped by the line loop. -/
theorem resolveLines_skip (pre : List String)
    (hpre : ∀ l ∈ pre, scanLine l = none) (rest : List String) :
    resolveLines (pre ++ rest) = resolveLines rest := by
  induction pre with
  | nil => rfl
  | cons l ls ih =>
    have hl : scanLine l = none := hpre l (by simp)
    have := ih (fun x hx => hpre x (List.mem_cons_of_mem l hx))
    simp [resolveLines, hl, this]

/-- C6 counterexample: on the body consisting of the specification's
scenario line (with its literal backslash escapes), resolution returns a
URL that still contains the `backslash-slash` sequences — only `=` and
`&` are decoded — so the returned URL is not the plain-slash
`https://host/path=X&confirm=Y` the claim states. -/
theorem downloadUrl_keeps_backslash_slash :
    get_url_from_gdrive_confirmation downloadUrlLine =
      .ok "https:\\/\\/host\\/path=X&confirm=Y" ∧
    ("https:\\/\\/host\\/path=X&confirm=Y" : String) ≠
      "https://host/path=X&confirm=Y" :=
  ⟨rfl, by decide⟩

/-- C6 amended: a body whose first line hitting any check is the scenario's
`downloadUrl` line resolves to `https:\/\/host\/path=X&confirm=Y` — the
`=` and `&` escapes are decoded to `=` and `&`, while the
literal `\/` sequences are preserved (the code performs no `\/`
unescaping). -/
theorem downloadUrl_unicode_unescape (contents : String) (pre rest : List String)
    (hsplit : pySplitlines contents = pre ++ downloadUrlLine :: rest)
    (hpre : ∀ l ∈ pre, scanLine l = none) :
    get_url_from_gdrive_confirmation contents =
      .ok "https:\\/\\/host\\/path=X&confirm=Y" := by
  unfold get_url_from_gdrive_confirmation
  rw [hsplit, resolveLines_skip pre hpre]
  rfl

/-- C6 amended, witness: a two-line body whose first line matches nothing
and whose second line is the scenario line. -/
theorem downloadUrl_unicode_unescape_witness :
    get_url_from_gdrive_confirmation ("junk\n" ++ downloadUrlLine) =
      .ok "https:\\/\\/host\\/path=X&confirm=Y" :=
  downloadUrl_unicode_unescape ("junk\n" ++ downloadUrlLine) ["junk"] [] rfl
    (fun l hl => by rw [List.mem_singleton.mp hl]; rfl)

/-- C4 counterexample: a single body line holding both an error caption and
an href download URL resolves to the URL — the caption check runs last
within the line and is never reached, contradicting the claim that an
error-caption body always fails and that the caption takes precedence
within its line. -/
theorem caption_line_with_href_returns_url :
    captionGroup captionHrefLine.data = some "Quota exceeded".data ∧
    get_url_from_gdrive_confirmation captionHrefLine =
      .ok "https://docs.google.com/uc?export=download&id=X" :=
  ⟨rfl, rfl⟩

/-- C4 amended: resolution fails with exactly the caption text when the
caption's line is the first line on which any check fires and, within that
line, none of the three URL checks (href, download form, `downloadUrl`)
fires — the caption check is the last of the four per-line checks, not the
first. -/
theorem caption_error_when_first_hit (contents : String) (pre : List String)
    (line : String) (rest : List String) (cap : List Char)
    (hsplit : pySplitlines contents = pre ++ line :: rest)
    (hpre : ∀ l ∈ pre, scanLine l = none)
    (h1 : hrefGroup line.data = none)
    (h2 : formTrigger line.data = false)
    (h3 : downloadUrlGroup line.data = none)
    (h4 : captionGroup line.data = some cap) :
    get_url_from_gdrive_confirmation contents = .error ⟨cap⟩ := by
  unfold get_url_from_gdrive_confirmation
  rw [hsplit, resolveLines_skip pre hpre]
  simp [resolveLines, scanLine, h1, h2, h3, h4]

/-- C4 amended, witness: a body whose second line carries only the error
caption fails with exactly the caption text. -/
theorem caption_error_when_first_hit_witness :
    get_url_from_gdrive_confirmation
      "junk\n<p class=\"uc-error-subcaption\">Quota exceeded</p>" =
      .error "Quota exceeded" :=
  caption_error_when_first_hit
    "junk\n<p class=\"uc-error-subcaption\">Quota exceeded</p>" ["junk"]
    "<p class=\"uc-error-subcaption\">Quota exceeded</p>" []
    "Quota exceeded".data rfl
    (fun l hl => by rw [List.mem_singleton.mp hl]; rfl) rfl rfl rfl rfl

/-! ### C8 — documented path-pattern shapes -/

/-- Helper: dropping a list prefix off itself leaves the appended rest. -/
theorem dropPre_self_append (p r : List Char) : dropPre p (p ++ r) = some r := by
  induction p with
  | nil => rfl
  | cons a as ih => simp [dropPre, ih]

/-- Helper: a successful prefix drop extends over a longer input. -/
theorem dropPre_append_of (p l r : List Char) (h : dropPre p l = some r)
    (X : List Char) : dropPre p (l ++ X) = some (r ++ X) := by
  induction p generalizing l r with
  | nil =>
    simp [dropPre] at h ⊢
    rw [h]
  | cons a as ih =>
    cases l with
    | nil => simp [dropPre] at h
    | cons b bs =>
      by_cases hab : a = b
      · subst hab
        simp [dropPre] at h ⊢
        exact ih bs r h
      · simp [dropPre, hab] at h

/-- Helper: a prefix drop that fails on a character mismatch (not for lack
of input) also fails over a longer input. -/
theorem dropPre_append_none (p l : List Char) (h : dropPre p l = none)
    (hlen : p.length ≤ l.length) (X : List Char) :
    dropPre p (l ++ X) = none := by
  induction p generalizing l with
  | nil => simp [dropPre] at h
  | cons a as ih =>
    cases l with
    | nil => simp at hlen
    | cons b bs =>
      by_cases hab : a = b
      · subst hab
        simp [dropPre] at h ⊢
        exact ih bs h (by simpa using hlen)
      · simp [dropPre, hab]

/-- Helper: dropping `/kind` off `/kind ++ Y`. -/
theorem dropPre_slash_kind (K Y : List Char) :
    dropPre ('/' :: K) ('/' :: (K ++ Y)) = some Y := by
  simp [dropPre, dropPre_self_append]

/-- Helper: dropping `/kind` fails when the path's kind starts with a
different character. -/
theorem dropPre_slash_ne (a : Char) (as : List Char) (b : Char)
    (bs Y : List Char) (h : a ≠ b) :
    dropPre ('/' :: a :: as) ('/' :: ((b :: bs) ++ Y)) = none := by
  simp [dropPre, h]

/-- Helper: the lazy-group scan never stops inside text that starts with a
non-slash character. -/
theorem tailHit_cons_ne (alts : List (List Char)) (c : Char) (r : List Char)
    (h : c ≠ '/') : tailHit alts (c :: r) = false := by
  simp only [tailHit, List.any_eq_false]
  intro a _ he
  simp only [Bool.or_eq_true, decide_eq_true_eq] at he
  rcases he with he | he <;> exact h (List.cons.inj he).1

/-- Helper: on input `mid ++ "/" ++ alt` with a slash-free middle and a
closing alternative, the lazy group captures exactly the middle. -/
theorem lazyGroup_exact (alts : List (List Char)) (alt : List Char)
    (hhit : tailHit alts ('/' :: alt) = true) :
    ∀ (mid acc : List Char), (∀ c ∈ mid, c ≠ '/') →
      lazyGroup alts acc (mid ++ '/' :: alt) = some (acc.reverse ++ mid) := by
  intro mid
  induction mid with
  | nil =>
    intro acc _
    simp [lazyGroup, hhit]
  | cons c cs ih =>
    intro acc hmid
    have hc : c ≠ '/' := hmid c (by simp)
    have hth : tailHit alts (c :: (cs ++ '/' :: alt)) = false :=
      tailHit_cons_ne alts c _ hc
    have hrec := ih (c :: acc) (fun x hx => hmid x (by simp [hx]))
    rw [show ((c :: cs) ++ '/' :: alt) = c :: (cs ++ '/' :: alt) from rfl,
      lazyGroup, hth]
    simp only [Bool.false_eq_true, if_false]
    rw [hrec]
    simp

/-- Helper: `takeWhile` over a run satisfying the predicate followed by a
stopping character returns exactly the run. -/
theorem takeWhile_append_stop (q : Char → Bool) (d : List Char)
    (hd : ∀ c ∈ d, q c = true) (c : Char) (hc : q c = false)
    (rest : List Char) : (d ++ c :: rest).takeWhile q = d := by
  induction d with
  | nil => simp [List.takeWhile_cons, hc]
  | cons a as ih =>
    have ha : q a = true := hd a (by simp)
    simp [List.takeWhile_cons, ha, ih (fun x hx => hd x (by simp [hx]))]

/-- Helper: a non-multi pattern hits when the path is its literal prefix,
then `/d/`, then a slash-free capture closed by `/alt`. -/
theorem matchShape_plain_hit (kind : List Char) (alts : List (List Char))
    (alt fid : List Char) (hhit : tailHit alts ('/' :: alt) = true)
    (hfid : ∀ c ∈ fid, c ≠ '/') (path : List Char)
    (hpath : dropPre ('/' :: kind) path =
      some ("/d/".data ++ (fid ++ '/' :: alt))) :
    matchShapePath kind false alts path = some fid := by
  unfold matchShapePath
  rw [hpath]
  show (match dropPre "/d/".data ("/d/".data ++ (fid ++ '/' :: alt)) with
    | none => none
    | some r3 => lazyGroup alts [] r3) = some fid
  rw [dropPre_self_append]
  show lazyGroup alts [] (fid ++ '/' :: alt) = some fid
  rw [lazyGroup_exact alts alt hhit fid [] hfid]
  rfl

/-- Helper: a multi-account pattern hits when the path continues with
`/u/`, a non-empty digit run, `/d/`, and a slash-free capture closed by
`/alt`. -/
theorem matchShape_multi_hit (kind : List Char) (alts : List (List Char))
    (alt fid d : List Char) (hhit : tailHit alts ('/' :: alt) = true)
    (hfid : ∀ c ∈ fid, c ≠ '/') (hdne : d ≠ [])
    (hdig : ∀ c ∈ d, c.isDigit = true) (path : List Char)
    (hpath : dropPre ('/' :: kind) path =
      some ("/u/".data ++ (d ++ ("/d/".data ++ (fid ++ '/' :: alt))))) :
    matchShapePath kind true alts path = some fid := by
  have h2 : dropPre "/u/".data
      ("/u/".data ++ (d ++ ("/d/".data ++ (fid ++ '/' :: alt)))) =
      some (d ++ ("/d/".data ++ (fid ++ '/' :: alt))) := dropPre_self_append _ _
  have h3 : (d ++ ("/d/".data ++ (fid ++ '/' :: alt))).takeWhile Char.isDigit = d := by
    rw [show ("/d/".data ++ (fid ++ '/' :: alt)) =
      '/' :: ("d/".data ++ (fid ++ '/' :: alt)) from rfl]
    exact takeWhile_append_stop _ d hdig '/' (by decide) _
  have h4 : (d ++ ("/d/".data ++ (fid ++ '/' :: alt))).drop d.length =
      "/d/".data ++ (fid ++ '/' :: alt) := List.drop_left d _
  have h5 : dropPre "/d/".data ("/d/".data ++ (fid ++ '/' :: alt)) =
      some (fid ++ '/' :: alt) := dropPre_self_append _ _
  unfold matchShapePath
  rw [hpath]
  show (match dropPre "/u/".data
      ("/u/".data ++ (d ++ ("/d/".data ++ (fid ++ '/' :: alt)))) with
    | none => none
    | some r2 =>
      if r2.takeWhile Char.isDigit = [] then none
      else
        match dropPre "/d/".data
            (r2.drop (r2.takeWhile Char.isDigit).length) with
        | none => none
        | some r3 => lazyGroup alts [] r3) = some fid
  rw [h2]
  show (if (d ++ ("/d/".data ++ (fid ++ '/' :: alt))).takeWhile Char.isDigit = []
      then none
    else
      match dropPre "/d/".data
          ((d ++ ("/d/".data ++ (fid ++ '/' :: alt))).drop
            ((d ++ ("/d/".data ++ (fid ++ '/' :: alt))).takeWhile
              Char.isDigit).length) with
      | none => none
      | some r3 => lazyGroup alts [] r3) = some fid
  rw [h3, if_neg hdne, h4, h5]
  show lazyGroup alts [] (fid ++ '/' :: alt) = some fid
  rw [lazyGroup_exact alts alt hhit fid [] hfid]
  rfl

/-- Helper: a pattern whose literal kind prefix does not match yields no
capture. -/
theorem matchShape_none_of_kind (kind : List Char) (multi : Bool)
    (alts : List (List Char)) (path : List Char)
    (h : dropPre ('/' :: kind) path = none) :
    matchShapePath kind multi alts path = none := by
  unfold matchShapePath
  rw [h]

/-- Helper: a non-multi pattern yields nothing on a multi-account path —
after the kind prefix it expects `/d/` but finds `/u/`. -/
theorem matchShape_plain_none_on_multi (kind : List Char)
    (alts : List (List Char)) (path W : List Char)
    (hpath : dropPre ('/' :: kind) path = some ("/u/".data ++ W)) :
    matchShapePath kind false alts path = none := by
  unfold matchShapePath
  rw [hpath]
  show (match dropPre "/d/".data ("/u/".data ++ W) with
    | none => none
    | some r3 => lazyGroup alts [] r3) = none
  rw [dropPre_append_none _ _ (by decide) (by decide) W]

/-- Helper: character-level form of a non-multi documented path. -/
theorem shapePath_plain_data (kind fid alt : String) :
    (shapePath kind none fid alt).data =
      '/' :: (kind.data ++ ("/d/".data ++ (fid.data ++ ('/' :: alt.data)))) := by
  simp only [shapePath, String.data_append, List.append_assoc,
    show "/".data = ['/'] from rfl, List.singleton_append, List.cons_append,
    List.nil_append]

/-- Helper: character-level form of a multi-account documented path. -/
theorem shapePath_multi_data (kind dd fid alt : String) :
    (shapePath kind (some dd) fid alt).data =
      '/' :: (kind.data ++
        ("/u/".data ++ (dd.data ++ ("/d/".data ++ (fid.data ++ ('/' :: alt.data)))))) := by
  simp only [shapePath, String.data_append, List.append_assoc,
    show "/".data = ['/'] from rfl, List.singleton_append, List.cons_append,
    List.nil_append]

/-- Helper: the pattern table on a plain `file` path. -/
theorem fm_file_plain (fid alt : List Char) (hfid : ∀ c ∈ fid, c ≠ '/')
    (hhit : tailHit ["edit".data, "view".data] ('/' :: alt) = true) :
    firstMatch PARSING_PATTERNS
      ('/' :: ("file".data ++ ("/d/".data ++ (fid ++ '/' :: alt)))) = some fid := by
  have hit := matchShape_plain_hit "file".data ["edit".data, "view".data]
    alt fid hhit hfid _ (dropPre_slash_kind "file".data _)
  simp only [PARSING_PATTERNS, firstMatch, hit]

/-- Helper: the pattern table on a multi-account `file` path. -/
theorem fm_file_multi (fid alt d : List Char) (hfid : ∀ c ∈ fid, c ≠ '/')
    (hhit : tailHit ["edit".data, "view".data] ('/' :: alt) = true)
    (hdne : d ≠ []) (hdig : ∀ c ∈ d, c.isDigit = true) :
    firstMatch PARSING_PATTERNS
      ('/' :: ("file".data ++
        ("/u/".data ++ (d ++ ("/d/".data ++ (fid ++ '/' :: alt)))))) = some fid := by
  have n1 := matchShape_plain_none_on_multi "file".data
    ["edit".data, "view".data] _ _
    (dropPre_slash_kind "file".data ("/u/".data ++ (d ++ ("/d/".data ++ (fid ++ '/' :: alt)))))
  have hit := matchShape_multi_hit "file".data ["edit".data, "view".data]
    alt fid d hhit hfid hdne hdig _ (dropPre_slash_kind "file".data _)
  simp only [PARSING_PATTERNS, firstMatch, n1, hit]

/-- Helper: the pattern table on a plain `document` path. -/
theorem fm_document_plain (fid alt : List Char) (hfid : ∀ c ∈ fid, c ≠ '/')
    (hhit : tailHit ["edit".data, "htmlview".data, "view".data] ('/' :: alt) = true) :
    firstMatch PARSING_PATTERNS
      ('/' :: ("document".data ++ ("/d/".data ++ (fid ++ '/' :: alt)))) = some fid := by
  have nf : dropPre ('/' :: "file".data)
      ('/' :: ("document".data ++ ("/d/".data ++ (fid ++ '/' :: alt)))) = none :=
    dropPre_slash_ne 'f' "ile".data 'd' "ocument".data _ (by decide)
  have n1 := matchShape_none_of_kind "file".data false
    ["edit".data, "view".data] _ nf
  have n2 := matchShape_none_of_kind "file".data true
    ["edit".data, "view".data] _ nf
  have hit := matchShape_plain_hit "document".data
    ["edit".data, "htmlview".data, "view".data]
    alt fid hhit hfid _ (dropPre_slash_kind "document".data _)
  simp only [PARSING_PATTERNS, firstMatch, n1, n2, hit]

/-- Helper: the pattern table on a multi-account `document` path. -/
theorem fm_document_multi (fid alt d : List Char) (hfid : ∀ c ∈ fid, c ≠ '/')
    (hhit : tailHit ["edit".data, "htmlview".data, "view".data] ('/' :: alt) = true)
    (hdne : d ≠ []) (hdig : ∀ c ∈ d, c.isDigit = true) :
    firstMatch PARSING_PATTERNS
      ('/' :: ("document".data ++
        ("/u/".data ++ (d ++ ("/d/".data ++ (fid ++ '/' :: alt)))))) = some fid := by
  have nf : dropPre ('/' :: "file".data)
      ('/' :: ("document".data ++
        ("/u/".data ++ (d ++ ("/d/".data ++ (fid ++ '/' :: alt)))))) = none :=
    dropPre_slash_ne 'f' "ile".data 'd' "ocument".data _ (by decide)
  have n1 := matchShape_none_of_kind "file".data false
    ["edit".data, "view".data] _ nf
  have n2 := matchShape_none_of_kind "file".data true
    ["edit".data, "view".data] _ nf
  have n3 := matchShape_plain_none_on_multi "document".data
    ["edit".data, "htmlview".data, "view".data] _ _
    (dropPre_slash_kind "document".data ("/u/".data ++ (d ++ ("/d/".data ++ (fid ++ '/' :: alt)))))
  have hit := matchShape_multi_hit "document".data
    ["edit".data, "htmlview".data, "view".data]
    alt fid d hhit hfid hdne hdig _ (dropPre_slash_kind "document".data _)
  simp only [PARSING_PATTERNS, firstMatch, n1, n2, n3, hit]

/-- Helper: the pattern table on a plain `presentation` path. -/
theorem fm_presentation_plain (fid alt : List Char) (hfid : ∀ c ∈ fid, c ≠ '/')
    (hhit : tailHit ["edit".data, "htmlview".data, "view".data] ('/' :: alt) = true) :
    firstMatch PARSING_PATTERNS
      ('/' :: ("presentation".data ++ ("/d/".data ++ (fid ++ '/' :: alt)))) = some fid := by
  have nf : dropPre ('/' :: "file".data)
      ('/' :: ("presentation".data ++ ("/d/".data ++ (fid ++ '/' :: alt)))) = none :=
    dropPre_slash_ne 'f' "ile".data 'p' "resentation".data _ (by decide)
  have nd : dropPre ('/' :: "document".data)
      ('/' :: ("presentation".data ++ ("/d/".data ++ (fid ++ '/' :: alt)))) = none :=
    dropPre_slash_ne 'd' "ocument".data 'p' "resentation".data _ (by decide)
  have n1 := matchShape_none_of_kind "file".data false
    ["edit".data, "view".data] _ nf
  have n2 := matchShape_none_of_kind "file".data true
    ["edit".data, "view".data] _ nf
  have n3 := matchShape_none_of_kind "document".data false
    ["edit".data, "htmlview".data, "view".data] _ nd
  have n4 := matchShape_none_of_kind "document".data true
    ["edit".data, "htmlview".data, "view".data] _ nd
  have hit := matchShape_plain_hit "presentation".data
    ["edit".data, "htmlview".data, "view".data]
    alt fid hhit hfid _ (dropPre_slash_kind "presentation".data _)
  simp only [PARSING_PATTERNS, firstMatch, n1, n2, n3, n4, hit]

/-- Helper: the pattern table on a multi-account `presentation` path. -/
theorem fm_presentation_multi (fid alt d : List Char) (hfid : ∀ c ∈ fid, c ≠ '/')
    (hhit : tailHit ["edit".data, "htmlview".data, "view".data] ('/' :: alt) = true)
    (hdne : d ≠ []) (hdig : ∀ c ∈ d, c.isDigit = true) :
    firstMatch PARSING_PATTERNS
      ('/' :: ("presentation".data ++
        ("/u/".data ++ (d ++ ("/d/".data ++ (fid ++ '/' :: alt)))))) = some fid := by
  have nf : dropPre ('/' :: "file".data)
      ('/' :: ("presentation".data ++
        ("/u/".data ++ (d ++ ("/d/".data ++ (fid ++ '/' :: alt)))))) = none :=
    dropPre_slash_ne 'f' "ile".data 'p' "resentation".data _ (by decide)
  have nd : dropPre ('/' :: "document".data)
      ('/' :: ("presentation".data ++
        ("/u/".data ++ (d ++ ("/d/".data ++ (fid ++ '/' :: alt)))))) = none :=
    dropPre_slash_ne 'd' "ocument".data 'p' "resentation".data _ (by decide)
  have n1 := matchShape_none_of_kind "file".data false
    ["edit".data, "view".data] _ nf
  have n2 := matchShape_none_of_kind "file".data true
    ["edit".data, "view".data] _ nf
  have n3 := matchShape_none_of_kind "document".data false
    ["edit".data, "htmlview".data, "view".data] _ nd
  have n4 := matchShape_none_of_kind "document".data true
    ["edit".data, "htmlview".data, "view".data] _ nd
  have n5 := matchShape_plain_none_on_multi "presentation".data
    ["edit".data, "htmlview".data, "view".data] _ _
    (dropPre_slash_kind "presentation".data ("/u/".data ++ (d ++ ("/d/".data ++ (fid ++ '/' :: alt)))))
  have hit := matchShape_multi_hit "presentation".data
    ["edit".data, "htmlview".data, "view".data]
    alt fid d hhit hfid hdne hdig _ (dropPre_slash_kind "presentation".data _)
  simp only [PARSING_PATTERNS, firstMatch, n1, n2, n3, n4, n5, hit]

/-- Helper: the pattern table on a plain `spreadsheets` path. -/
theorem fm_spreadsheets_plain (fid alt : List Char) (hfid : ∀ c ∈ fid, c ≠ '/')
    (hhit : tailHit ["edit".data, "htmlview".data, "view".data] ('/' :: alt) = true) :
    firstMatch PARSING_PATTERNS
      ('/' :: ("spreadsheets".data ++ ("/d/".data ++ (fid ++ '/' :: alt)))) = some fid := by
  have nf : dropPre ('/' :: "file".data)
      ('/' :: ("spreadsheets".data ++ ("/d/".data ++ (fid ++ '/' :: alt)))) = none :=
    dropPre_slash_ne 'f' "ile".data 's' "preadsheets".data _ (by decide)
  have nd : dropPre ('/' :: "document".data)
      ('/' :: ("spreadsheets".data ++ ("/d/".data ++ (fid ++ '/' :: alt)))) = none :=
    dropPre_slash_ne 'd' "ocument".data 's' "preadsheets".data _ (by decide)
  have np : dropPre ('/' :: "presentation".data)
      ('/' :: ("spreadsheets".data ++ ("/d/".data ++ (fid ++ '/' :: alt)))) = none :=
    dropPre_slash_ne 'p' "resentation".data 's' "preadsheets".data _ (by decide)
  have n1 := matchShape_none_of_kind "file".data false
    ["edit".data, "view".data] _ nf
  have n2 := matchShape_none_of_kind "file".data true
    ["edit".data, "view".data] _ nf
  have n3 := matchShape_none_of_kind "document".data false
    ["edit".data, "htmlview".data, "view".data] _ nd
  have n4 := matchShape_none_of_kind "document".data true
    ["edit".data, "htmlview".data, "view".data] _ nd
  have n5 := matchShape_none_of_kind "presentation".data false
    ["edit".data, "htmlview".data, "view".data] _ np
  have n6 := matchShape_none_of_kind "presentation".data true
    ["edit".data, "htmlview".data, "view".data] _ np
  have hit := matchShape_plain_hit "spreadsheets".data
    ["edit".data, "htmlview".data, "view".data]
    alt fid hhit hfid _ (dropPre_slash_kind "spreadsheets".data _)
  simp only [PARSING_PATTERNS, firstMatch, n1, n2, n3, n4, n5, n6, hit]

/-- Helper: the pattern table on a multi-account `spreadsheets` path. -/
theorem fm_spreadsheets_multi (fid alt d : List Char) (hfid : ∀ c ∈ fid, c ≠ '/')
    (hhit : tailHit ["edit".data, "htmlview".data, "view".data] ('/' :: alt) = true)
    (hdne : d ≠ []) (hdig : ∀ c ∈ d, c.isDigit = true) :
    firstMatch PARSING_PATTERNS
      ('/' :: ("spreadsheets".data ++
        ("/u/".data ++ (d ++ ("/d/".data ++ (fid ++ '/' :: alt)))))) = some fid := by
  have nf : dropPre ('/' :: "file".data)
      ('/' :: ("spreadsheets".data ++
        ("/u/".data ++ (d ++ ("/d/".data ++ (fid ++ '/' :: alt)))))) = none :=
    dropPre_slash_ne 'f' "ile".data 's' "preadsheets".data _ (by decide)
  have nd : dropPre ('/' :: "document".data)
      ('/' :: ("spreadsheets".data ++
        ("/u/".data ++ (d ++ ("/d/".data ++ (fid ++ '/' :: alt)))))) = none :=
    dropPre_slash_ne 'd' "ocument".data 's' "preadsheets".data _ (by decide)
  have np : dropPre ('/' :: "presentation".data)
      ('/' :: ("spreadsheets".data ++
        ("/u/".data ++ (d ++ ("/d/".data ++ (fid ++ '/' :: alt)))))) = none :=
    dropPre_slash_ne 'p' "resentation".data 's' "preadsheets".data _ (by decide)
  have n1 := matchShape_none_of_kind "file".data false
    ["edit".data, "view".data] _ nf
  have n2 := matchShape_none_of_kind "file".data true
    ["edit".data, "view".data] _ nf
  have n3 := matchShape_none_of_kind "document".data false
    ["edit".data, "htmlview".data, "view".data] _ nd
  have n4 := matchShape_none_of_kind "document".data true
    ["edit".data, "htmlview".data, "view".data] _ nd
  have n5 := matchShape_none_of_kind "presentation".data false
    ["edit".data, "htmlview".data, "view".data] _ np
  have n6 := matchShape_none_of_kind "presentation".data true
    ["edit".data, "htmlview".data, "view".data] _ np
  have n7 := matchShape_plain_none_on_multi "spreadsheets".data
    ["edit".data, "htmlview".data, "view".data] _ _
    (dropPre_slash_kind "spreadsheets".data ("/u/".data ++ (d ++ ("/d/".data ++ (fid ++ '/' :: alt)))))
  have hit := matchShape_multi_hit "spreadsheets".data
    ["edit".data, "htmlview".data, "view".data]
    alt fid d hhit hfid hdne hdig _ (dropPre_slash_kind "spreadsheets".data _)
  simp only [PARSING_PATTERNS, firstMatch, n1, n2, n3, n4, n5, n6, n7, hit]

/-- C8 amended: for every documented provider path shape with the suffix
table the pattern list actually implements — `edit`/`view` for `/file`
paths, `edit`/`htmlview`/`view` for `/document`, `/presentation` and
`/spreadsheets` paths, each with or without the multi-account `/u/<digits>`
segment — the resolver extracts the embedded (slash-free) identifier
unchanged, provided the query string carries no `id` parameter. -/
theorem parse_url_documented_shapes (kind : String) (alts : List String)
    (hk : (kind, alts) ∈ documentedShapes) (alt : String) (halt : alt ∈ alts)
    (acct : Option String)
    (hacct : ∀ d, acct = some d → d.data ≠ [] ∧ ∀ c ∈ d.data, c.isDigit = true)
    (fid : String) (hfid : ∀ c ∈ fid.data, c ≠ '/')
    (host : Option String)
    (hhost : host = some "drive.google.com" ∨ host = some "docs.google.com")
    (q : String) (hq : getParam q "id" = []) :
    (parse_url ⟨host, shapePath kind acct fid alt, q⟩).1 = some fid := by
  have hg : is_google_drive_url ⟨host, shapePath kind acct fid alt, q⟩ = true := by
    rcases hhost with rfl | rfl <;> simp [is_google_drive_url]
  have hfm : firstMatch PARSING_PATTERNS (shapePath kind acct fid alt).data =
      some fid.data := by
    simp only [documentedShapes, List.mem_cons, List.not_mem_nil, or_false,
      Prod.mk.injEq] at hk
    rcases hk with ⟨rfl, rfl⟩ | ⟨rfl, rfl⟩ | ⟨rfl, rfl⟩ | ⟨rfl, rfl⟩
    · simp only [List.mem_cons, List.not_mem_nil, or_false] at halt
      rcases halt with rfl | rfl <;> cases acct with
      | none =>
        rw [shapePath_plain_data]
        exact fm_file_plain fid.data _ hfid (by decide)
      | some dd =>
        obtain ⟨h1, h2⟩ := hacct dd rfl
        rw [shapePath_multi_data]
        exact fm_file_multi fid.data _ dd.data hfid (by decide) h1 h2
    · simp only [List.mem_cons, List.not_mem_nil, or_false] at halt
      rcases halt with rfl | rfl | rfl <;> cases acct with
      | none =>
        rw [shapePath_plain_data]
        exact fm_document_plain fid.data _ hfid (by decide)
      | some dd =>
        obtain ⟨h1, h2⟩ := hacct dd rfl
        rw [shapePath_multi_data]
        exact fm_document_multi fid.data _ dd.data hfid (by decide) h1 h2
    · simp only [List.mem_cons, List.not_mem_nil, or_false] at halt
      rcases halt with rfl | rfl | rfl <;> cases acct with
      | none =>
        rw [shapePath_plain_data]
        exact fm_presentation_plain fid.data _ hfid (by decide)
      | some dd =>
        obtain ⟨h1, h2⟩ := hacct dd rfl
        rw [shapePath_multi_data]
        exact fm_presentation_multi fid.data _ dd.data hfid (by decide) h1 h2
    · simp only [List.mem_cons, List.not_mem_nil, or_false] at halt
      rcases halt with rfl | rfl | rfl <;> cases acct with
      | none =>
        rw [shapePath_plain_data]
        exact fm_spreadsheets_plain fid.data _ hfid (by decide)
      | some dd =>
        obtain ⟨h1, h2⟩ := hacct dd rfl
        rw [shapePath_multi_data]
        exact fm_spreadsheets_multi fid.data _ dd.data hfid (by decide) h1 h2
  simp [parse_url, hg, hq, hfm]

/-- C8 amended, witness: a multi-account `spreadsheets` htmlview URL on the
`docs.google.com` host resolves to its embedded identifier. -/
theorem parse_url_documented_shapes_witness :
    (parse_url ⟨some "docs.google.com",
      shapePath "spreadsheets" (some "12") "KEY" "htmlview", ""⟩).1 = some "KEY" :=
  parse_url_documented_shapes "spreadsheets" ["edit", "htmlview", "view"]
    (by decide) "htmlview" (by decide) (some "12")
    (fun d hd => by
      injection hd with h
      subst h
      exact ⟨by decide, by decide⟩)
    "KEY" (by decide) (some "docs.google.com") (Or.inr rfl) "" rfl

/-- C8 counterexample: the claim lists the `htmlview` suffix for all four
path kinds, but the `/file` patterns accept only `edit` and `view` — a
`/file/d/ABC/htmlview` path on a provider host resolves to no identifier
at all. -/
theorem parse_url_file_htmlview_none :
    (parse_url ⟨some "drive.google.com", "/file/d/ABC/htmlview", ""⟩).1 = none ∧
    (parse_url ⟨some "drive.google.com", "/file/d/ABC/htmlview", ""⟩).1 ≠
      some "ABC" := by
  constructor
  · rfl
  · decide

/-- C5 amended, witness: `a.txt` and `a.zip` share the stem `a`, and their
temporary paths coincide accordingly. -/
theorem tempPath_eq_iff_stem_eq_witness :
    stemOf "a.txt" = stemOf "a.zip" ∧ tempPath "a.txt" = tempPath "a.zip" :=
  ⟨rfl, (tempPath_eq_iff_stem_eq "a.txt" "a.zip").mpr rfl⟩
